import Mathlib

/-!
# Verification of the `toyota_agent` repository

A shallow embedding, in Lean 4, of the application logic of the
`toyota_agent` repository (files `src/tools/tools.py`, `src/agent/agent.py`,
`src/app.py`, `src/setup_data.py`), together with theorems settling the
frozen claims about its natural-language specification.

External capabilities (the DuckDB engine, the Chroma vector store, the
OpenAI chat / embedding endpoints, the JSON library, pandas rendering and
the LangChain agent loop) are modelled as explicit environment parameters:
functions supplied to the embedded code, exactly at the call sites where the
Python code calls into those libraries.  Python exceptions are modelled with
`Except String`; the string is the exception's message.
-/

set_option autoImplicit false

namespace ToyotaAgent

/-! ## Retrieval tool (`tools.py`, `retrieve`)

A passage returned by the vector index.  `page_content` is the passage
text; `source` models `doc.metadata.get("source", ...)`: `none` when the
metadata carries no `source` key. -/

structure Document where
  page_content : String
  source : Option String
deriving Repr, DecidableEq

/-- The deduplication loop of `retrieve`:

```python
unique_docs = []
retrieved_docs = set()
for doc in docs:
    if doc.page_content not in retrieved_docs:
        unique_docs.append(doc)
        retrieved_docs.add(doc.page_content)
```

`unique` is `unique_docs`, `seen` is `retrieved_docs` (the Python `set` is
modelled as the list of texts in insertion order; only membership is used). -/
def dedupLoop : List Document → List Document → List String → List Document
  | [], unique, _ => unique
  | d :: rest, unique, seen =>
    if d.page_content ∈ seen then dedupLoop rest unique seen
    else dedupLoop rest (unique ++ [d]) (seen ++ [d.page_content])

/-- `unique_docs` as computed by `retrieve` from the list `docs` that the
retriever returned. -/
def unique_docs (docs : List Document) : List Document :=
  dedupLoop docs [] []

/-- The dictionary `{"context": ..., "sources": ...}` returned by `retrieve`. -/
structure RetrievalResult where
  context : String
  sources : List String
deriving Repr, DecidableEq

/-- The pure tail of `retrieve` (`tools.py`): the part after
`docs = retriever.invoke(question)`.  The vector store, the embedding
endpoint and the retriever are external; the list `docs` they produced is
the input.  `list(set(sources))` materialises a Python set in unspecified
order; it is modelled as `List.dedup` (same elements, no duplicates). -/
def retrieve (docs : List Document) : RetrievalResult :=
  let uniq := unique_docs docs
  let context := String.intercalate "\n\n" (uniq.map (·.page_content))
  let sources := uniq.map (fun d => d.source.getD "Unknown")
  { context := context, sources := sources.dedup }

/-! ## Data-setup script (`setup_data.py`)

The PDF loading, chunking and embedding of `setup_rag_db` and the bulk
CSV loading of `setup_sql_db` are entirely external-library work; the model
records their observable effects on an abstract setup state.  What matters
for the claims is the control flow: in the source, the two calls
`setup_rag_db()` and `setup_sql_db()` are indented inside the body of
`setup_sql_db` (after the CSV loop and `con.close()`), not at module
level. -/

structure SetupEnv where
  csv_files : List String
deriving Repr

structure SetupState where
  /-- Tables existing in the DuckDB file (`CREATE OR REPLACE TABLE`). -/
  tables : List String
  /-- How many times the RAG (vector-store) build has run. -/
  rag_runs : Nat
  /-- DuckDB connections opened / closed so far. -/
  conn_opens : Nat
  conn_closes : Nat
deriving Repr, DecidableEq

/-- `os.path.basename`: the part after the last `/`. -/
def basename (p : String) : String :=
  (p.splitOn "/").getLastD p

/-- `os.path.splitext(...)[0]` on a basename: drop the last `.`-suffix when
there is one. -/
def splitext_root (f : String) : String :=
  match f.splitOn "." with
  | [] => f
  | [_] => f
  | parts => String.intercalate "." (parts.dropLast)

/-- `CREATE OR REPLACE TABLE name ...`: replaces the table when it exists,
otherwise adds it. -/
def createOrReplace (tables : List String) (name : String) : List String :=
  if name ∈ tables then tables else tables ++ [name]

/-- One pass of the body of `setup_sql_db` up to `print("DuckDB setup
complete.")`: connect, create one table per CSV file (named after the file),
`SHOW TABLES`, close. -/
def setup_sql_db_once (env : SetupEnv) (st : SetupState) : SetupState :=
  let st := { st with conn_opens := st.conn_opens + 1 }
  let st := { st with
    tables := env.csv_files.foldl
      (fun ts f => createOrReplace ts (splitext_root (basename f))) st.tables }
  { st with conn_closes := st.conn_closes + 1 }

/-- `setup_rag_db`: loads PDFs, chunks, embeds and persists the vector
store (all external-library effects); recorded as one RAG build run. -/
def setup_rag_db (st : SetupState) : SetupState :=
  { st with rag_runs := st.rag_runs + 1 }

/-- `setup_sql_db` as written in the source: its body ends with the two
calls `setup_rag_db()` and `setup_sql_db()` (indented inside the function,
not at module level), so it recurses into itself.  `fuel` bounds the number
of executed recursive calls; `none` means the bound was reached without the
call ever returning. -/
def setup_sql_db (env : SetupEnv) : Nat → SetupState → Option SetupState
  | 0, _ => none
  | fuel + 1, st =>
    let st := setup_sql_db_once env st
    let st := setup_rag_db st
    setup_sql_db env fuel st

/-! ## SQL tool (`tools.py`: `get_schema`, `generate_sql`, `run_sql`)

The DuckDB engine is external; it is modelled by an environment function
`exec` mapping a SQL text to either a result set or an error message (a
raised exception).  A result row is seen by the Python code in two ways:
positionally (`fetchall`, `col[0]`, `col[1]`, `v[0]`) and as a record
mapping column name to value (`.df().to_dict(orient="records")`); `Row`
carries both views.  Cell values are carried as strings (the code only ever
stringifies or serialises them). -/

structure Row where
  cells : List String
  record : List (String × String)
deriving Repr, DecidableEq

structure DuckEnv where
  exec : String → Except String (List Row)

/-- The chat-completion endpoint (`ChatOpenAI(...).invoke`), returning the
response text (`.content`). -/
structure LLMEnv where
  invoke : String → String

/-- How many `duckdb.connect` / `con.close()` calls have happened. -/
structure ConnLedger where
  opens : Nat
  closes : Nat
deriving Repr, DecidableEq

/-- One column description built by the inner loop of `get_schema`:
`col[0]` is the column name, `col[1]` its type; for a `DIM_`-prefixed table
and a text-typed column, up to 50 distinct values are fetched and appended.
(`col[0]`/`v[0]` are total in DuckDB's result shape; modelled with a `""`
default.) -/
def col_description (env : DuckEnv) (table_name : String) (col : Row) :
    Except String String := do
  let col_name := col.cells.headD ""
  let col_type := (col.cells.drop 1).headD ""
  let distinct_values_str ←
    if table_name.startsWith "DIM_" ∧ (col_type = "VARCHAR" ∨ col_type = "STRING") then do
      let distinct_values ←
        env.exec ("SELECT DISTINCT " ++ col_name ++ " FROM " ++ table_name ++ " LIMIT 50")
      let values_list := distinct_values.map (fun v => v.cells.headD "")
      pure (" (Values: " ++ String.intercalate ", " values_list ++ ")")
    else
      pure ""
  pure (col_name ++ " (" ++ col_type ++ ")" ++ distinct_values_str)

/-- The per-table body of `get_schema`'s outer loop: `DESCRIBE` the table
and join the column descriptions. -/
def table_info (env : DuckEnv) (table : Row) : Except String String := do
  let table_name := table.cells.headD ""
  let columns ← env.exec ("DESCRIBE " ++ table_name)
  let col_descriptions ← columns.mapM (col_description env table_name)
  pure ("Table: " ++ table_name ++ "\nColumns: " ++ String.intercalate ", " col_descriptions)

/-- The fallible part of `get_schema` between `connect` and `close`:
`SHOW TABLES`, then describe every table, then join with blank lines. -/
def get_schema_body (env : DuckEnv) : Except String String := do
  let tables ← env.exec "SHOW TABLES"
  let schema_info ← tables.mapM (table_info env)
  pure (String.intercalate "\n\n" schema_info)

/-- `get_schema` (`tools.py`): connect, run the introspection queries,
close, return the joined description.  There is no `try`/`finally` here: a
raised error propagates and `con.close()` is then never reached, so only
the success branch increments `closes`. -/
def get_schema (env : DuckEnv) (led : ConnLedger) :
    Except String String × ConnLedger :=
  let led := { led with opens := led.opens + 1 }
  match get_schema_body env with
  | .error e => (.error e, led)
  | .ok s => (.ok s, { led with closes := led.closes + 1 })

/-- The instruction prompt built by `generate_sql`, with the schema and the
question interpolated at the two f-string slots. -/
def sql_prompt (schema question : String) : String :=
  "You are a SQL expert. Given the following database schema, write a SQL query to answer the user's question.\n    \n    Follow these rules:\n    1. Return only SQL—no explanations, comments, or natural-language text.\n    2. Use only the tables and columns provided in the schema.\n    3. Do not invent fields, tables, or values.\n    4. Prefer simple, readable SQL.\n    5. If the question is ambiguous, choose the safest reasonable interpretation based strictly on the schema.\n    6. Never modify the database; generate only SELECT queries unless explicitly instructed otherwise.\n    7. When filters involve text, use case-insensitive matching when appropriate.\n    8. If the user asks for something impossible with the available schema, generate the closest valid SQL query.\n\n    Schema:\n    "
  ++ schema ++
  "\n\n    Question: " ++ question ++
  "\n    \n    Return ONLY the SQL query. Do not include markdown formatting (```sql ... ```) or explanations.\n    "

/-- `generate_sql` (`tools.py`): build the schema description, then return
the chat model's response text verbatim.  A failure inside `get_schema`
propagates. -/
def generate_sql (denv : DuckEnv) (lenv : LLMEnv) (question : String)
    (led : ConnLedger) : Except String String × ConnLedger :=
  match get_schema denv led with
  | (.error e, led) => (.error e, led)
  | (.ok schema, led) => (.ok (lenv.invoke (sql_prompt schema question)), led)

/-- The dictionary `{"query": ..., "sql_result": ...}` returned by
`run_sql` on success: the generated statement and the row records in
execution order. -/
structure SQLResult where
  query : String
  sql_result : List (List (String × String))
deriving Repr, DecidableEq

/-- What `run_sql` returns to the agent framework: either the result
dictionary or (from the `except` branch) a plain error-message string. -/
inductive RunSqlReturn where
  | result : SQLResult → RunSqlReturn
  | errorText : String → RunSqlReturn
deriving Repr, DecidableEq

/-- `run_sql` (`tools.py`): generate the SQL, connect, execute inside
`try`/`except`/`finally`.  An execution failure is caught and turned into
the string `"Error executing SQL: ..."`; the `finally` closes the
connection on both paths.  A failure in `generate_sql` (before the `try`)
propagates as an uncaught exception (outer `.error`). -/
def run_sql (denv : DuckEnv) (lenv : LLMEnv) (question : String)
    (led : ConnLedger) : Except String RunSqlReturn × ConnLedger :=
  match generate_sql denv lenv question led with
  | (.error e, led) => (.error e, led)
  | (.ok sql_query, led) =>
    let led := { led with opens := led.opens + 1 }
    match denv.exec sql_query with
    | .ok rows =>
      let result := rows.map (·.record)
      let led := { led with closes := led.closes + 1 }
      (.ok (.result { query := sql_query, sql_result := result }), led)
    | .error e =>
      let led := { led with closes := led.closes + 1 }
      (.ok (.errorText ("Error executing SQL: " ++ e)), led)

/-! ## Agent (`agent.py`)

The LangChain agent loop (`self.agent.invoke(...)`) is external: the
environment supplies `agent_invoke`, producing the `result["messages"]`
list for a question.  A message exposes `content`; `tool_calls` (non-empty
exactly on the messages where the Python truthiness test
`hasattr(msg, "tool_calls") and msg.tool_calls` passes); and
`tool_call_id` (`none` when absent; Python also treats `""` as falsy).
The JSON library (`json.loads` on strings, `json.dumps`) and pandas
(`pd.DataFrame(...).to_string()`) are external and supplied by the
environment as well; JSON values are modelled by `JVal`. -/

inductive JVal where
  | jstr : String → JVal
  | jnum : Int → JVal
  | jbool : Bool → JVal
  | jnull : JVal
  | jarr : List JVal → JVal
  | jobj : List (String × JVal) → JVal

structure ToolCallReq where
  id : String
  name : String
  args : JVal

structure AgentMsg where
  content : String
  tool_calls : List ToolCallReq
  tool_call_id : Option String

/-- The `"result"` field of an entry of the `tool_calls` dictionary built
by `Agent.answer`: initialised to the empty list `[]` (a placeholder that
is *not* a string), later overwritten by the tool message's content
string. -/
inductive ToolResultVal where
  | emptyList : ToolResultVal
  | str : String → ToolResultVal

/-- One value of the `tool_calls` dictionary:
`{"name": ..., "args": ..., "result": ...}`. -/
structure ToolCallEntry where
  name : String
  args : JVal
  result : ToolResultVal

/-- The `tool_calls` Python dict, keyed by call id, in insertion order. -/
abbrev ToolCallDict := List (String × ToolCallEntry)

/-- `d[k] = v` on a Python dict: overwrite in place when the key exists,
append otherwise. -/
def dictSet (d : ToolCallDict) (k : String) (v : ToolCallEntry) : ToolCallDict :=
  if d.any (fun p => p.1 = k) then
    d.map (fun p => if p.1 = k then (k, v) else p)
  else
    d ++ [(k, v)]

/-- Key lookup on the dict (`k in d` / `d[k]`). -/
def dictGet? : ToolCallDict → String → Option ToolCallEntry
  | [], _ => none
  | p :: rest, k => if p.1 = k then some p.2 else dictGet? rest k

/-- Processing of one message by the correlation loop of `Agent.answer`:
record every invocation in `msg.tool_calls` under its id (with the empty
placeholder as result), then, if the message carries a (truthy)
`tool_call_id`, merge its content into the entry with that id — an
unguarded `tool_calls[msg.tool_call_id]` that raises `KeyError` when the
id was never recorded. -/
def recordInvocations (d : ToolCallDict) (tcs : List ToolCallReq) : ToolCallDict :=
  tcs.foldl
    (fun d tc => dictSet d tc.id { name := tc.name, args := tc.args, result := .emptyList }) d

def processMsg (d : ToolCallDict) (msg : AgentMsg) : Except String ToolCallDict :=
  let d := recordInvocations d msg.tool_calls
  match msg.tool_call_id with
  | none => .ok d
  | some i =>
    if i = "" then .ok d
    else
      match dictGet? d i with
      | some entry => .ok (dictSet d i { entry with result := .str msg.content })
      | none => .error ("KeyError: " ++ i)

def collectAux : List AgentMsg → ToolCallDict → Except String ToolCallDict
  | [], d => .ok d
  | msg :: rest, d =>
    match processMsg d msg with
    | .ok d' => collectAux rest d'
    | .error e => .error e

/-- The whole `for msg in result["messages"]` correlation loop, starting
from the empty dict. -/
def collectToolCalls (msgs : List AgentMsg) : Except String ToolCallDict :=
  collectAux msgs []

structure AgentEnv where
  /-- `self.agent.invoke({"messages": [...]})["messages"]`. -/
  agent_invoke : String → List AgentMsg
  /-- `json.loads` applied to a string (may raise on invalid JSON). -/
  json_parse : String → Except String JVal
  /-- `json.dumps`. -/
  json_dumps : JVal → String
  /-- `pd.DataFrame(...).to_string()`. -/
  df_to_string : JVal → String

/-- `json.loads(call.get("result", ""))`: on the empty-list placeholder
the argument is a `list`, not a string, and `json.loads` raises
`TypeError`; on a string it parses. -/
def json_loads_result (env : AgentEnv) : ToolResultVal → Except String JVal
  | .emptyList => .error "TypeError: the JSON object must be str, bytes or bytearray, not list"
  | .str s => env.json_parse s

/-- Python subscript `result[key]` on a parsed JSON value: `KeyError` for a
missing key of an object, `TypeError` when the value is not an object. -/
def jsubscript (v : JVal) (key : String) : Except String JVal :=
  match v with
  | .jobj fields =>
    match fields.lookup key with
    | some x => .ok x
    | none => .error ("KeyError: " ++ key)
  | _ => .error ("TypeError: value is not subscriptable by " ++ key)

/-- `block += x` where `block` is a `str`: `x` must itself be a string,
otherwise Python raises `TypeError`. -/
def jval_as_str : JVal → Except String String
  | .jstr s => .ok s
  | _ => .error "TypeError: can only concatenate str to str"

/-- The per-call block built by `Agent.format_tool_details`. -/
def format_tool_block (env : AgentEnv) (call : ToolCallEntry) :
    Except String String := do
  let result ← json_loads_result env call.result
  let block := "Tool name: " ++ call.name ++ "\n\n" ++ "Args:\n"
    ++ env.json_dumps call.args ++ "\n\n" ++ "Result:\n"
  let block ←
    if call.name = "retrieve" then do
      let ctx ← jval_as_str (← jsubscript result "context")
      let srcs ← jsubscript result "sources"
      pure (block ++ ctx ++ "\n\n" ++ "Sources:\n" ++ env.json_dumps srcs)
    else if call.name = "run_sql" then do
      let q ← jval_as_str (← jsubscript result "query")
      let rows ← jsubscript result "sql_result"
      pure (block ++ q ++ "\n\n" ++ "Output:\n" ++ env.df_to_string rows)
    else do
      let r ← jval_as_str result
      pure (block ++ r)
  pure (block ++ "\n\n")

/-- The `for call in tool_calls.values()` loop of
`Agent.format_tool_details`: one block per entry, in insertion order; an
exception raised while building a block propagates out of the loop. -/
def format_blocks (env : AgentEnv) : List (String × ToolCallEntry) → Except String (List String)
  | [] => .ok []
  | p :: rest =>
    match format_tool_block env p.2 with
    | .error e => .error e
    | .ok b =>
      match format_blocks env rest with
      | .error e => .error e
      | .ok bs => .ok (b :: bs)

/-- `Agent.format_tool_details`: the collected blocks joined with blank
lines.  Any exception from a block (e.g. `json.loads` on the empty-list
placeholder) propagates. -/
def format_tool_details (env : AgentEnv) (tool_calls : ToolCallDict) :
    Except String String :=
  match format_blocks env tool_calls with
  | .error e => .error e
  | .ok output => .ok (String.intercalate "\n\n" output)

/-- The dictionary returned by `Agent.answer`. -/
structure AgentAnswer where
  answer : String
  tools : Option String

/-- `Agent.answer`: invoke the framework, read the last message's content
(`result["messages"][-1]`, an `IndexError` on an empty list), run the
correlation loop, and, when any tool was recorded, attach the formatted
tool details. -/
def agent_answer (env : AgentEnv) (question : String) :
    Except String AgentAnswer :=
  let result_messages := env.agent_invoke question
  match result_messages.getLast? with
  | none => .error "IndexError: list index out of range"
  | some last_message =>
    match collectToolCalls result_messages with
    | .error e => .error e
    | .ok tool_calls =>
      if tool_calls.isEmpty then
        .ok { answer := last_message.content, tools := none }
      else
        match format_tool_details env tool_calls with
        | .error e => .error e
        | .ok t => .ok { answer := last_message.content, tools := some t }

/-! ## Chat UI (`app.py`)

One user turn of the Streamlit app, from `if prompt := st.chat_input(...)`
on.  `Agent.answer` is the `answer_fn` argument (it can raise: `.error`).
The returned pair is (the session transcript after the turn, the error
banner `st.error` displayed — `none` when no error was shown).  Note the
order in the source: the user message is appended to
`st.session_state['messages']` *before* the `try` block. -/

structure ChatMessage where
  role : String
  content : String
  tools : Option String
deriving Repr, DecidableEq

structure AgentResponse where
  answer : String
  tools : Option String
deriving Repr, DecidableEq

def handle_turn (answer_fn : String → Except String AgentResponse)
    (prompt : String) (messages : List ChatMessage) :
    List ChatMessage × Option String :=
  let messages := messages ++ [{ role := "user", content := prompt, tools := none }]
  match answer_fn prompt with
  | .ok response =>
    match response.tools with
    | some t =>
      (messages ++ [{ role := "assistant", content := response.answer, tools := some t }], none)
    | none =>
      (messages ++ [{ role := "assistant", content := response.answer, tools := none }], none)
  | .error e => (messages, some ("An error occurred: " ++ e))

/-! ## Concrete environments used to exercise the theorems -/

/-- A database file with zero tables and no other working statement. -/
def duckEnvEmpty : DuckEnv :=
  ⟨fun q => if q = "SHOW TABLES" then .ok [] else .error "Catalog Error"⟩

/-- A database with zero tables on which every generated query fails. -/
def duckEnvExecFails : DuckEnv :=
  ⟨fun q => if q = "SHOW TABLES" then .ok []
    else .error "Parser Error: syntax error at or near :"⟩

/-- A database engine on which every statement succeeds with an empty
result set. -/
def duckEnvAllOk : DuckEnv :=
  ⟨fun _ => .ok []⟩

/-- A chat model that always answers with the same statement text. -/
def llmEnvSelect1 : LLMEnv :=
  ⟨fun _ => "SELECT 1"⟩

/-- An agent framework run that records one `retrieve` invocation
(`call_1`) for which no tool-result message ever arrives. -/
def agentEnvUnanswered : AgentEnv where
  agent_invoke := fun _ =>
    [ { content := "", tool_calls := [⟨"call_1", "retrieve", .jobj []⟩],
        tool_call_id := none },
      { content := "The warranty lasts three years.", tool_calls := [],
        tool_call_id := none } ]
  json_parse := fun _ => .ok .jnull
  json_dumps := fun _ => "null"
  df_to_string := fun _ => ""

/-- An agent framework run whose message history contains a tool-result
message (`call_x`) with no matching recorded invocation. -/
def agentEnvOrphan : AgentEnv where
  agent_invoke := fun _ =>
    [ { content := "stray result", tool_calls := [], tool_call_id := some "call_x" } ]
  json_parse := fun _ => .ok .jnull
  json_dumps := fun _ => "null"
  df_to_string := fun _ => ""

/-- An `Agent.answer` stand-in that always raises (e.g. a network failure
talking to the chat endpoint). -/
def answerFail : String → Except String AgentResponse :=
  fun _ => .error "network down"

end ToyotaAgent

namespace ToyotaAgent

/-! ## Lemmas about the deduplication loop -/

theorem dedupLoop_spec (docs : List Document) :
    ∀ (unique : List Document),
      ((unique.map (·.page_content)).Nodup →
        ((dedupLoop docs unique (unique.map (·.page_content))).map
          (·.page_content)).Nodup) ∧
      (∀ c, c ∈ (dedupLoop docs unique (unique.map (·.page_content))).map
          (·.page_content) ↔
        c ∈ unique.map (·.page_content) ∨ c ∈ docs.map (·.page_content)) ∧
      (dedupLoop docs unique (unique.map (·.page_content))).length ≤
        unique.length + docs.length ∧
      (∀ d, d ∈ dedupLoop docs unique (unique.map (·.page_content)) →
        d ∈ unique ∨ d ∈ docs) := by
  induction docs with
  | nil =>
    intro unique
    refine ⟨fun h => ?_, fun c => ?_, ?_, fun d hd => ?_⟩
    · simpa [dedupLoop] using h
    · simp [dedupLoop]
    · simp [dedupLoop]
    · simp only [dedupLoop] at hd
      exact Or.inl hd
  | cons d rest ih =>
    intro unique
    by_cases hmem : d.page_content ∈ unique.map (·.page_content)
    · have hstep :
        dedupLoop (d :: rest) unique (unique.map (·.page_content)) =
          dedupLoop rest unique (unique.map (·.page_content)) := by
        simp [dedupLoop, hmem]
      obtain ⟨ih1, ih2, ih3, ih4⟩ := ih unique
      refine ⟨fun h => ?_, fun c => ?_, ?_, fun x hx => ?_⟩
      · rw [hstep]; exact ih1 h
      · rw [hstep]
        constructor
        · intro h
          rcases (ih2 c).1 h with h' | h'
          · exact Or.inl h'
          · exact Or.inr (by simp [h'])
        · intro h
          rcases h with h' | h'
          · exact (ih2 c).2 (Or.inl h')
          · simp only [List.map_cons, List.mem_cons] at h'
            rcases h' with h'' | h''
            · exact (ih2 c).2 (Or.inl (h'' ▸ hmem))
            · exact (ih2 c).2 (Or.inr h'')
      · rw [hstep]
        calc (dedupLoop rest unique (unique.map (·.page_content))).length
            ≤ unique.length + rest.length := ih3
          _ ≤ unique.length + (d :: rest).length := by
              simp only [List.length_cons]; omega
      · rw [hstep] at hx
        rcases ih4 x hx with h' | h'
        · exact Or.inl h'
        · exact Or.inr (List.mem_cons_of_mem _ h')
    · have hstep :
        dedupLoop (d :: rest) unique (unique.map (·.page_content)) =
          dedupLoop rest (unique ++ [d])
            (unique.map (·.page_content) ++ [d.page_content]) := by
        simp [dedupLoop, hmem]
      have hseen : unique.map (·.page_content) ++ [d.page_content] =
          (unique ++ [d]).map (·.page_content) := by simp
      obtain ⟨ih1, ih2, ih3, ih4⟩ := ih (unique ++ [d])
      rw [hseen] at hstep
      refine ⟨fun h => ?_, fun c => ?_, ?_, fun x hx => ?_⟩
      · rw [hstep]
        refine ih1 ?_
        simp only [List.map_append, List.map_cons, List.map_nil]
        exact List.Nodup.append h (by simp) (by
          intro a ha hb
          simp only [List.mem_singleton] at hb
          exact hmem (hb ▸ ha))
      · rw [hstep]
        constructor
        · intro h
          rcases (ih2 c).1 h with h' | h'
          · simp only [List.map_append, List.map_cons, List.map_nil,
              List.mem_append, List.mem_singleton] at h'
            rcases h' with h'' | h''
            · exact Or.inl h''
            · exact Or.inr (by simp [h''])
          · exact Or.inr (by simp [h'])
        · intro h
          rcases h with h' | h'
          · exact (ih2 c).2 (Or.inl (by simp [h']))
          · simp only [List.map_cons, List.mem_cons] at h'
            rcases h' with h'' | h''
            · exact (ih2 c).2 (Or.inl (by simp [h'']))
            · exact (ih2 c).2 (Or.inr h'')
      · rw [hstep]
        calc (dedupLoop rest (unique ++ [d])
              ((unique ++ [d]).map (·.page_content))).length
            ≤ (unique ++ [d]).length + rest.length := ih3
          _ = unique.length + (d :: rest).length := by
              simp only [List.length_append, List.length_cons,
                List.length_nil]; omega
      · rw [hstep] at hx
        rcases ih4 x hx with h' | h'
        · simp only [List.mem_append, List.mem_singleton] at h'
          rcases h' with h'' | h''
          · exact Or.inl h''
          · exact Or.inr (by simp [h''])
        · exact Or.inr (List.mem_cons_of_mem _ h')

theorem unique_docs_nodup (docs : List Document) :
    ((unique_docs docs).map (·.page_content)).Nodup := by
  simpa [unique_docs] using (dedupLoop_spec docs []).1 (by simp)

theorem unique_docs_mem (docs : List Document) (c : String) :
    c ∈ (unique_docs docs).map (·.page_content) ↔
      c ∈ docs.map (·.page_content) := by
  have h := ((dedupLoop_spec docs []).2.1 c)
  simpa [unique_docs] using h

theorem unique_docs_length (docs : List Document) :
    (unique_docs docs).length ≤ docs.length := by
  have h := (dedupLoop_spec docs []).2.2.1
  simpa [unique_docs] using h

theorem unique_docs_sub (docs : List Document) (d : Document) :
    d ∈ unique_docs docs → d ∈ docs := by
  intro hd
  have h := (dedupLoop_spec docs []).2.2.2 d (by simpa [unique_docs] using hd)
  simpa using h

/-! ## Claim C1 -/

/-- Claim C1: for every list of passages returned by the vector index to
`retrieve`, the output context contains the text of each distinct passage
exactly once (each text occurring in the input occurs exactly once among
the deduplicated passages the context is joined from, and nothing else
occurs), and the returned sources list contains no duplicate source
identifiers. -/
theorem retrieve_dedup_exact_once (docs : List Document) :
    (∀ c, c ∈ docs.map (·.page_content) →
      ((unique_docs docs).map (·.page_content)).count c = 1) ∧
    (∀ c, c ∈ (unique_docs docs).map (·.page_content) →
      c ∈ docs.map (·.page_content)) ∧
    (retrieve docs).context =
      String.intercalate "\n\n" ((unique_docs docs).map (·.page_content)) ∧
    (retrieve docs).sources.Nodup := by
  refine ⟨fun c hc => ?_, fun c hc => (unique_docs_mem docs c).1 hc, rfl, ?_⟩
  · exact List.count_eq_one_of_mem (unique_docs_nodup docs)
      ((unique_docs_mem docs c).2 hc)
  · simp only [retrieve]
    exact List.nodup_dedup _

/-- Witness for C1 at a concrete retrieval: the duplicated passage text
`"alpha"` appears exactly once, and the sources are duplicate-free. -/
theorem retrieve_dedup_exact_once_witness :
    ("alpha" ∈ ([⟨"alpha", some "w.pdf"⟩, ⟨"alpha", some "w.pdf"⟩,
        ⟨"beta", none⟩] : List Document).map (·.page_content)) ∧
    ((unique_docs [⟨"alpha", some "w.pdf"⟩, ⟨"alpha", some "w.pdf"⟩,
        ⟨"beta", none⟩]).map (·.page_content)).count "alpha" = 1 ∧
    (retrieve [⟨"alpha", some "w.pdf"⟩, ⟨"alpha", some "w.pdf"⟩,
        ⟨"beta", none⟩]).sources.Nodup :=
  ⟨by decide,
   (retrieve_dedup_exact_once _).1 "alpha" (by decide),
   (retrieve_dedup_exact_once [⟨"alpha", some "w.pdf"⟩,
      ⟨"alpha", some "w.pdf"⟩, ⟨"beta", none⟩]).2.2.2⟩

/-! ## Claim C6 -/

/-- Claim C6: for a retrieval whose vector search returned at most `k = 3`
passages, the sources list has length at most 3, the context is joined
from exactly the deduplicated passages, and every source identifier comes
from one of those passages. -/
theorem retrieve_sources_bound (docs : List Document) (h : docs.length ≤ 3) :
    (retrieve docs).sources.length ≤ 3 ∧
    (retrieve docs).context =
      String.intercalate "\n\n" ((unique_docs docs).map (·.page_content)) ∧
    ∀ s ∈ (retrieve docs).sources,
      ∃ d ∈ unique_docs docs, d.source.getD "Unknown" = s := by
  refine ⟨?_, rfl, fun s hs => ?_⟩
  · have h1 : (retrieve docs).sources.length ≤
        ((unique_docs docs).map (fun d => d.source.getD "Unknown")).length := by
      simp only [retrieve]
      exact (List.dedup_sublist _).length_le
    have h2 : ((unique_docs docs).map
        (fun d => d.source.getD "Unknown")).length = (unique_docs docs).length :=
      List.length_map _ _
    exact le_trans h1 (le_trans (le_of_eq h2)
      (le_trans (unique_docs_length docs) h))
  · have hs' : s ∈ (unique_docs docs).map (fun d => d.source.getD "Unknown") := by
      simp only [retrieve] at hs
      exact List.dedup_sublist _ |>.mem hs
    obtain ⟨d, hd, hds⟩ := List.mem_map.1 hs'
    exact ⟨d, hd, hds⟩

/-- Witness for C6 at a concrete three-passage retrieval. -/
theorem retrieve_sources_bound_witness :
    (([⟨"alpha", some "w.pdf"⟩, ⟨"alpha", some "w.pdf"⟩,
        ⟨"beta", some "m.pdf"⟩] : List Document).length ≤ 3) ∧
    (retrieve [⟨"alpha", some "w.pdf"⟩, ⟨"alpha", some "w.pdf"⟩,
        ⟨"beta", some "m.pdf"⟩]).sources.length ≤ 3 :=
  ⟨by decide,
   (retrieve_sources_bound [⟨"alpha", some "w.pdf"⟩, ⟨"alpha", some "w.pdf"⟩,
      ⟨"beta", some "m.pdf"⟩] (by decide)).1⟩

/-! ## Claim C3 -/

/-- Claim C3: in `setup_data.py` the two calls `setup_rag_db()` and
`setup_sql_db()` sit inside the body of `setup_sql_db` (after the CSV-load
loop), so `setup_sql_db` recurses into itself and never terminates: no
execution bounded by any amount of fuel ever returns a final state. -/
theorem setup_sql_db_diverges (env : SetupEnv) :
    ∀ (fuel : Nat) (st : SetupState), setup_sql_db env fuel st = none := by
  intro fuel
  induction fuel with
  | zero => intro st; rfl
  | succ n ih => intro st; exact ih _

/-! ## Claim C9 -/

/-- Claim C9: when the analytical store contains zero tables (the
`SHOW TABLES` catalog listing is empty), `get_schema` returns the empty
description string without error, and the connection it opened is
closed. -/
theorem get_schema_empty_store (env : DuckEnv) (led : ConnLedger)
    (h : env.exec "SHOW TABLES" = .ok []) :
    get_schema env led =
      (.ok "", { opens := led.opens + 1, closes := led.closes + 1 }) := by
  have hbody : get_schema_body env = .ok "" := by
    unfold get_schema_body
    rw [h]
    rfl
  simp [get_schema, hbody]

/-- Witness for C9 on a concrete empty store. -/
theorem get_schema_empty_store_witness :
    duckEnvEmpty.exec "SHOW TABLES" = .ok [] ∧
    get_schema duckEnvEmpty ⟨0, 0⟩ = (.ok "", ⟨1, 1⟩) :=
  ⟨rfl, get_schema_empty_store duckEnvEmpty ⟨0, 0⟩ rfl⟩

/-! ## Claim C2 -/

/-- Claim C2: when executing the generated SQL statement fails, `run_sql`
catches the exception and returns the plain-text error message string as
its result instead of raising (`.ok` of the error text, not `.error`),
and both connections opened during the call (the schema-introspection one
and the execution one) are closed. -/
theorem run_sql_exec_failure (denv : DuckEnv) (lenv : LLMEnv)
    (question : String) (led : ConnLedger) (schema e : String)
    (h1 : get_schema_body denv = .ok schema)
    (h2 : denv.exec (lenv.invoke (sql_prompt schema question)) = .error e) :
    run_sql denv lenv question led =
      (.ok (.errorText ("Error executing SQL: " ++ e)),
       { opens := led.opens + 2, closes := led.closes + 2 }) := by
  simp [run_sql, generate_sql, get_schema, h1, h2]

/-- Witness for C2: a concrete run in which the generated statement fails
to execute; the tool returns the error text normally with the connections
closed. -/
theorem run_sql_exec_failure_witness :
    get_schema_body duckEnvExecFails = .ok "" ∧
    duckEnvExecFails.exec (llmEnvSelect1.invoke (sql_prompt "" "How many sales?"))
      = .error "Parser Error: syntax error at or near :" ∧
    run_sql duckEnvExecFails llmEnvSelect1 "How many sales?" ⟨0, 0⟩ =
      (.ok (.errorText
        "Error executing SQL: Parser Error: syntax error at or near :"),
       ⟨2, 2⟩) :=
  ⟨rfl, rfl,
   run_sql_exec_failure duckEnvExecFails llmEnvSelect1 "How many sales?"
     ⟨0, 0⟩ "" "Parser Error: syntax error at or near :" rfl rfl⟩

/-! ## Claim C7 -/

/-- Claim C7: when execution of the generated statement succeeds,
`run_sql` returns the record whose components are the generated statement
text (under the dict key `query`) and the ordered sequence of result
records mapping column name to value (under the dict key `sql_result`). -/
theorem run_sql_success_shape (denv : DuckEnv) (lenv : LLMEnv)
    (question : String) (led : ConnLedger) (schema : String) (rows : List Row)
    (h1 : get_schema_body denv = .ok schema)
    (h2 : denv.exec (lenv.invoke (sql_prompt schema question)) = .ok rows) :
    run_sql denv lenv question led =
      (.ok (.result
        { query := lenv.invoke (sql_prompt schema question),
          sql_result := rows.map (·.record) }),
       { opens := led.opens + 2, closes := led.closes + 2 }) := by
  simp [run_sql, generate_sql, get_schema, h1, h2]

/-- Witness for C7 on a concrete successful execution. -/
theorem run_sql_success_shape_witness :
    get_schema_body duckEnvAllOk = .ok "" ∧
    duckEnvAllOk.exec (llmEnvSelect1.invoke (sql_prompt "" "How many sales?"))
      = .ok [] ∧
    run_sql duckEnvAllOk llmEnvSelect1 "How many sales?" ⟨0, 0⟩ =
      (.ok (.result { query := "SELECT 1", sql_result := [] }), ⟨2, 2⟩) :=
  ⟨rfl, rfl,
   run_sql_success_shape duckEnvAllOk llmEnvSelect1 "How many sales?"
     ⟨0, 0⟩ "" [] rfl rfl⟩

/-! ## Claim C8 -/

/-- Counterexample to C8 as stated: a concrete `run_sql` call opens two
database connections, not exactly one — `generate_sql` runs `get_schema`,
which opens and closes its own connection before `run_sql` opens the one
it executes on. -/
theorem run_sql_opens_two_connections :
    (run_sql duckEnvAllOk llmEnvSelect1 "How many sales?" ⟨0, 0⟩).2.opens = 2 ∧
    (run_sql duckEnvAllOk llmEnvSelect1 "How many sales?" ⟨0, 0⟩).2.opens ≠ 1 :=
  ⟨rfl, by decide⟩

/-- Claim C8 as amended: every `run_sql` call in which schema
introspection succeeds opens exactly two database connections — one inside
`get_schema` (via `generate_sql`), one in its own body — and closes both
before returning, whether execution of the generated statement succeeds or
fails. -/
theorem run_sql_conn_ledger (denv : DuckEnv) (lenv : LLMEnv)
    (question : String) (led : ConnLedger) (schema : String)
    (h1 : get_schema_body denv = .ok schema) :
    (run_sql denv lenv question led).2 =
      { opens := led.opens + 2, closes := led.closes + 2 } := by
  cases h2 : denv.exec (lenv.invoke (sql_prompt schema question)) with
  | ok rows => simp [run_sql, generate_sql, get_schema, h1, h2]
  | error e => simp [run_sql, generate_sql, get_schema, h1, h2]

/-- Witness for the amended C8 on a concrete call. -/
theorem run_sql_conn_ledger_witness :
    get_schema_body duckEnvExecFails = .ok "" ∧
    (run_sql duckEnvExecFails llmEnvSelect1 "How many sales?" ⟨0, 0⟩).2 = ⟨2, 2⟩ :=
  ⟨rfl,
   run_sql_conn_ledger duckEnvExecFails llmEnvSelect1 "How many sales?"
     ⟨0, 0⟩ "" rfl⟩

/-! ## Claim C4 -/

/-- Counterexample to C4 as stated: with an `Agent.answer` that raises, a
concrete turn still appends the user message to the transcript — the
append happens before the `try` block — while the error banner is shown;
so it is false that nothing from the turn is appended. -/
theorem handle_turn_error_keeps_user_message :
    (handle_turn answerFail "Hello" []).1 =
      [{ role := "user", content := "Hello", tools := none }] ∧
    (handle_turn answerFail "Hello" []).1 ≠ [] ∧
    (handle_turn answerFail "Hello" []).2 = some "An error occurred: network down" :=
  ⟨rfl, by decide, rfl⟩

/-- Claim C4 as amended: when an exception escapes `Agent.answer`, the UI
catches it and shows a visible error, and no assistant message is appended
for that turn — but the user message was already appended to the
transcript before the agent was invoked. -/
theorem handle_turn_error (answer_fn : String → Except String AgentResponse)
    (prompt : String) (messages : List ChatMessage) (e : String)
    (h : answer_fn prompt = .error e) :
    handle_turn answer_fn prompt messages =
      (messages ++ [{ role := "user", content := prompt, tools := none }],
       some ("An error occurred: " ++ e)) := by
  simp [handle_turn, h]

/-- Witness for the amended C4 on a concrete failing turn. -/
theorem handle_turn_error_witness :
    answerFail "Hello" = .error "network down" ∧
    handle_turn answerFail "Hello" [] =
      ([{ role := "user", content := "Hello", tools := none }],
       some "An error occurred: network down") :=
  ⟨rfl, handle_turn_error answerFail "Hello" [] "network down" rfl⟩

/-! ## Lemmas about the tool-call correlation dictionary -/

theorem dictGet?_map_set (d : ToolCallDict) (k : String) (v : ToolCallEntry)
    (h : d.any (fun p => p.1 = k) = true) :
    dictGet? (d.map (fun p => if p.1 = k then (k, v) else p)) k = some v := by
  induction d with
  | nil => simp at h
  | cons p rest ih =>
    by_cases hk : p.1 = k
    · simp [dictGet?, hk]
    · have h' : rest.any (fun p => p.1 = k) = true := by
        simp only [List.any_cons, Bool.or_eq_true, decide_eq_true_eq] at h
        rcases h with h | h
        · exact absurd h hk
        · simpa using h
      simp [dictGet?, hk, ih h']

theorem dictGet?_append_new (d : ToolCallDict) (k : String) (v : ToolCallEntry)
    (h : d.any (fun p => p.1 = k) = false) :
    dictGet? (d ++ [(k, v)]) k = some v := by
  induction d with
  | nil => simp [dictGet?]
  | cons p rest ih =>
    simp only [List.any_cons, Bool.or_eq_false_iff, decide_eq_false_iff_not] at h
    simp [dictGet?, h.1, ih (by simpa using h.2)]

theorem dictGet?_dictSet_self (d : ToolCallDict) (k : String) (v : ToolCallEntry) :
    dictGet? (dictSet d k v) k = some v := by
  unfold dictSet
  cases h : d.any (fun p => p.1 = k) with
  | true => simpa [h] using dictGet?_map_set d k v h
  | false => simpa [h] using dictGet?_append_new d k v h

theorem dictGet?_map_other (d : ToolCallDict) (k k' : String) (v : ToolCallEntry)
    (h : k' ≠ k) :
    dictGet? (d.map (fun p => if p.1 = k then (k, v) else p)) k' = dictGet? d k' := by
  induction d with
  | nil => rfl
  | cons p rest ih =>
    by_cases hk : p.1 = k
    · have : k ≠ k' := fun hh => h hh.symm
      simp [dictGet?, hk, this, ih]
    · simp [dictGet?, hk, ih]

theorem dictGet?_append_other (d : ToolCallDict) (k k' : String) (v : ToolCallEntry)
    (h : k' ≠ k) :
    dictGet? (d ++ [(k, v)]) k' = dictGet? d k' := by
  induction d with
  | nil =>
    have : k ≠ k' := fun hh => h hh.symm
    simp [dictGet?, this]
  | cons p rest ih =>
    by_cases hp : p.1 = k'
    · simp [dictGet?, hp]
    · simp [dictGet?, hp, ih]

theorem dictGet?_dictSet_other (d : ToolCallDict) (k k' : String) (v : ToolCallEntry)
    (h : k' ≠ k) :
    dictGet? (dictSet d k v) k' = dictGet? d k' := by
  unfold dictSet
  cases hd : d.any (fun p => p.1 = k) with
  | true => simpa [hd] using dictGet?_map_other d k k' v h
  | false => simpa [hd] using dictGet?_append_other d k k' v h

theorem dictGet?_mem (d : ToolCallDict) (k : String) (e : ToolCallEntry)
    (h : dictGet? d k = some e) : (k, e) ∈ d := by
  induction d with
  | nil => simp [dictGet?] at h
  | cons p rest ih =>
    by_cases hp : p.1 = k
    · simp only [dictGet?, hp, if_pos] at h
      have : p = (k, e) := by
        obtain ⟨p1, p2⟩ := p
        simp only at hp
        injection h with h2
        simp only [Prod.mk.injEq]
        exact ⟨hp, h2⟩
      exact this ▸ List.mem_cons_self p rest
    · simp only [dictGet?, hp, if_neg, if_false] at h
      exact List.mem_cons_of_mem p (ih h)

theorem dictGet?_ne_nil (d : ToolCallDict) (k : String) (e : ToolCallEntry)
    (h : dictGet? d k = some e) : d.isEmpty = false := by
  cases d with
  | nil => simp [dictGet?] at h
  | cons p rest => rfl

/-! ## Lemmas about the correlation loop of `Agent.answer` -/

theorem recordInvocations_other (tcs : List ToolCallReq) :
    ∀ (d : ToolCallDict) (i : String), i ∉ tcs.map (·.id) →
      dictGet? (recordInvocations d tcs) i = dictGet? d i := by
  induction tcs with
  | nil => intro d i _; rfl
  | cons tc rest ih =>
    intro d i h
    simp only [List.map_cons, List.mem_cons, not_or] at h
    calc dictGet? (recordInvocations
          (dictSet d tc.id { name := tc.name, args := tc.args, result := .emptyList }) rest) i
        = dictGet? (dictSet d tc.id
            { name := tc.name, args := tc.args, result := .emptyList }) i :=
          ih _ i h.2
      _ = dictGet? d i := dictGet?_dictSet_other _ _ _ _ h.1

theorem recordInvocations_mem (tcs : List ToolCallReq) :
    ∀ (d : ToolCallDict) (i : String), i ∈ tcs.map (·.id) →
      ∃ nm a, dictGet? (recordInvocations d tcs) i =
        some { name := nm, args := a, result := .emptyList } := by
  induction tcs with
  | nil => intro d i h; simp at h
  | cons tc rest ih =>
    intro d i h
    by_cases hrest : i ∈ rest.map (·.id)
    · exact ih _ i hrest
    · have hi : tc.id = i := by
        simp only [List.map_cons, List.mem_cons] at h
        rcases h with h | h
        · exact h.symm
        · exact absurd h hrest
      refine ⟨tc.name, tc.args, ?_⟩
      have hrec : recordInvocations d (tc :: rest) =
          recordInvocations (dictSet d tc.id
            { name := tc.name, args := tc.args, result := .emptyList }) rest := rfl
      rw [hrec, recordInvocations_other rest _ i hrest, hi]
      exact dictGet?_dictSet_self _ _ _

theorem processMsg_placeholder (d d₂ : ToolCallDict) (msg : AgentMsg) (i : String)
    (hok : processMsg d msg = .ok d₂)
    (hres : msg.tool_call_id ≠ some i)
    (hsrc : (∃ tc ∈ msg.tool_calls, tc.id = i) ∨
      (∃ nm a, dictGet? d i = some { name := nm, args := a, result := .emptyList })) :
    ∃ nm a, dictGet? d₂ i = some { name := nm, args := a, result := .emptyList } := by
  have hd' : ∃ nm a, dictGet? (recordInvocations d msg.tool_calls) i =
      some { name := nm, args := a, result := .emptyList } := by
    by_cases hin : i ∈ msg.tool_calls.map (·.id)
    · exact recordInvocations_mem _ _ _ hin
    · rcases hsrc with ⟨tc, htc, hid⟩ | h
      · exact absurd (List.mem_map.2 ⟨tc, htc, hid⟩) hin
      · rw [recordInvocations_other _ _ _ hin]
        exact h
  simp only [processMsg] at hok
  cases hid : msg.tool_call_id with
  | none =>
    simp only [hid] at hok
    injection hok with h'
    exact h' ▸ hd'
  | some j =>
    simp only [hid] at hok
    have hji : j ≠ i := by
      intro hh
      exact hres (by rw [hid, hh])
    by_cases hje : j = ""
    · rw [if_pos hje] at hok
      injection hok with h'
      exact h' ▸ hd'
    · rw [if_neg hje] at hok
      cases hg : dictGet? (recordInvocations d msg.tool_calls) j with
      | none =>
        simp only [hg] at hok
        exact Except.noConfusion hok
      | some entry =>
        simp only [hg] at hok
        injection hok with h'
        obtain ⟨nm, a, hna⟩ := hd'
        refine ⟨nm, a, ?_⟩
        rw [← h', dictGet?_dictSet_other _ _ _ _ (Ne.symm hji)]
        exact hna

theorem collectAux_placeholder (msgs : List AgentMsg) :
    ∀ (d d' : ToolCallDict) (i : String),
      collectAux msgs d = .ok d' →
      (∀ m ∈ msgs, m.tool_call_id ≠ some i) →
      ((∃ m ∈ msgs, ∃ tc ∈ m.tool_calls, tc.id = i) ∨
        (∃ nm a, dictGet? d i = some { name := nm, args := a, result := .emptyList })) →
      ∃ nm a, dictGet? d' i = some { name := nm, args := a, result := .emptyList } := by
  induction msgs with
  | nil =>
    intro d d' i hok hres hsrc
    simp only [collectAux] at hok
    injection hok with h'
    rcases hsrc with ⟨m, hm, _⟩ | h
    · simp at hm
    · exact h' ▸ h
  | cons m rest ih =>
    intro d d' i hok hres hsrc
    cases hp : processMsg d m with
    | error e =>
      simp only [collectAux, hp] at hok
      exact Except.noConfusion hok
    | ok d₂ =>
      simp only [collectAux, hp] at hok
      have hresm : m.tool_call_id ≠ some i := hres m (List.mem_cons_self m rest)
      have hres' : ∀ m' ∈ rest, m'.tool_call_id ≠ some i :=
        fun m' hm' => hres m' (List.mem_cons_of_mem m hm')
      rcases hsrc with ⟨m', hm', htc⟩ | h
      · rcases List.mem_cons.1 hm' with rfl | hm''
        · exact ih d₂ d' i hok hres'
            (Or.inr (processMsg_placeholder d d₂ m' i hp hresm (Or.inl htc)))
        · exact ih d₂ d' i hok hres' (Or.inl ⟨m', hm'', htc⟩)
      · exact ih d₂ d' i hok hres'
          (Or.inr (processMsg_placeholder d d₂ m i hp hresm (Or.inr h)))

theorem processMsg_error_shape (d : ToolCallDict) (msg : AgentMsg) (e : String)
    (h : processMsg d msg = .error e) : ∃ j, e = "KeyError: " ++ j := by
  simp only [processMsg] at h
  cases hid : msg.tool_call_id with
  | none =>
    simp only [hid] at h
    exact Except.noConfusion h
  | some j =>
    simp only [hid] at h
    by_cases hje : j = ""
    · rw [if_pos hje] at h
      exact Except.noConfusion h
    · rw [if_neg hje] at h
      cases hg : dictGet? (recordInvocations d msg.tool_calls) j with
      | some entry =>
        simp only [hg] at h
        exact Except.noConfusion h
      | none =>
        simp only [hg] at h
        injection h with h'
        exact ⟨j, h'.symm⟩

theorem processMsg_none_preserve (d d₂ : ToolCallDict) (msg : AgentMsg) (i : String)
    (hget : dictGet? d i = none)
    (hnotin : i ∉ msg.tool_calls.map (·.id))
    (hok : processMsg d msg = .ok d₂) :
    dictGet? d₂ i = none := by
  have hrec : dictGet? (recordInvocations d msg.tool_calls) i = none := by
    rw [recordInvocations_other _ _ _ hnotin]
    exact hget
  simp only [processMsg] at hok
  cases hid : msg.tool_call_id with
  | none =>
    simp only [hid] at hok
    injection hok with h'
    exact h' ▸ hrec
  | some j =>
    simp only [hid] at hok
    by_cases hje : j = ""
    · rw [if_pos hje] at hok
      injection hok with h'
      exact h' ▸ hrec
    · rw [if_neg hje] at hok
      cases hg : dictGet? (recordInvocations d msg.tool_calls) j with
      | none =>
        simp only [hg] at hok
        exact Except.noConfusion hok
      | some entry =>
        simp only [hg] at hok
        injection hok with h'
        have hji : j ≠ i := by
          intro hh
          rw [hh, hrec] at hg
          cases hg
        rw [← h', dictGet?_dictSet_other _ _ _ _ (Ne.symm hji)]
        exact hrec

theorem collectAux_orphan (pre : List AgentMsg) :
    ∀ (d : ToolCallDict) (m : AgentMsg) (post : List AgentMsg) (i : String),
      dictGet? d i = none →
      (∀ p ∈ pre, i ∉ p.tool_calls.map (·.id)) →
      i ∉ m.tool_calls.map (·.id) →
      m.tool_call_id = some i → i ≠ "" →
      ∃ j, collectAux (pre ++ m :: post) d = .error ("KeyError: " ++ j) := by
  induction pre with
  | nil =>
    intro d m post i hget hpre hmtc hmid hne
    have hrec : dictGet? (recordInvocations d m.tool_calls) i = none := by
      rw [recordInvocations_other _ _ _ hmtc]
      exact hget
    refine ⟨i, ?_⟩
    have hp : processMsg d m = .error ("KeyError: " ++ i) := by
      simp only [processMsg, hmid, if_neg hne, hrec]
    simp only [List.nil_append, collectAux, hp]
  | cons p pre' ih =>
    intro d m post i hget hpre hmtc hmid hne
    cases hp : processMsg d p with
    | error e =>
      obtain ⟨j, hj⟩ := processMsg_error_shape d p e hp
      refine ⟨j, ?_⟩
      simp only [List.cons_append, collectAux, hp, hj]
    | ok d₂ =>
      have hget₂ : dictGet? d₂ i = none :=
        processMsg_none_preserve d d₂ p i hget
          (hpre p (List.mem_cons_self p pre')) hp
      obtain ⟨j, hj⟩ := ih d₂ m post i hget₂
        (fun q hq => hpre q (List.mem_cons_of_mem p hq)) hmtc hmid hne
      refine ⟨j, ?_⟩
      simp only [List.cons_append, collectAux, hp]
      exact hj

/-! ## Lemmas about `format_tool_details` -/

theorem format_tool_block_placeholder (env : AgentEnv) (call : ToolCallEntry)
    (h : call.result = .emptyList) :
    format_tool_block env call =
      .error "TypeError: the JSON object must be str, bytes or bytearray, not list" := by
  obtain ⟨nm, a, r⟩ := call
  change r = ToolResultVal.emptyList at h
  subst h
  rfl

theorem format_blocks_error (env : AgentEnv) :
    ∀ (d : List (String × ToolCallEntry)) (k : String) (e : ToolCallEntry),
      (k, e) ∈ d → e.result = .emptyList →
      ∃ err, format_blocks env d = .error err := by
  intro d
  induction d with
  | nil =>
    intro k e h _
    simp at h
  | cons p rest ih =>
    intro k e hmem hres
    cases hb : format_tool_block env p.2 with
    | error err => exact ⟨err, by simp only [format_blocks, hb]⟩
    | ok b =>
      rcases List.mem_cons.1 hmem with heq | hm
      · have hb' : format_tool_block env e = .ok b := by
          rw [← heq] at hb
          exact hb
        rw [format_tool_block_placeholder env e hres] at hb'
        cases hb'
      · obtain ⟨err, herr⟩ := ih k e hm hres
        exact ⟨err, by simp only [format_blocks, hb, herr]⟩

theorem format_tool_details_error (env : AgentEnv) (d : ToolCallDict)
    (k : String) (e : ToolCallEntry)
    (hmem : (k, e) ∈ d) (hres : e.result = .emptyList) :
    ∃ err, format_tool_details env d = .error err := by
  obtain ⟨err, herr⟩ := format_blocks_error env d k e hmem hres
  exact ⟨err, by simp only [format_tool_details, herr]⟩

/-! ## Claim C5 -/

/-- Counterexample to C5 as stated: a concrete agent turn records one tool
invocation (`call_1`) for which no result message ever arrives; instead of
returning normally, `Agent.answer` raises — the correlation map left the
result as the empty-list placeholder and `format_tool_details` then calls
`json.loads` on that list, a `TypeError`. -/
theorem agent_answer_placeholder_raises :
    agent_answer agentEnvUnanswered "What does the warranty cover?" =
      .error "TypeError: the JSON object must be str, bytes or bytearray, not list" := rfl

/-- Claim C5 as amended: when a tool invocation is recorded by its call
identifier but no result message with that identifier ever arrives, the
correlation map does leave that call's result as the empty placeholder,
but `Agent.answer` then raises while formatting the tool details (the
placeholder is a list, which `json.loads` rejects) instead of returning
normally. -/
theorem agent_answer_unanswered_call (env : AgentEnv) (question i : String)
    (m : AgentMsg) (tc : ToolCallReq)
    (hmem : m ∈ env.agent_invoke question)
    (htc : tc ∈ m.tool_calls) (hid : tc.id = i)
    (hnores : ∀ m' ∈ env.agent_invoke question, m'.tool_call_id ≠ some i) :
    (∀ d, collectToolCalls (env.agent_invoke question) = .ok d →
      ∃ nm a, dictGet? d i = some { name := nm, args := a, result := .emptyList }) ∧
    ∃ e, agent_answer env question = .error e := by
  have hplace : ∀ d, collectToolCalls (env.agent_invoke question) = .ok d →
      ∃ nm a, dictGet? d i = some { name := nm, args := a, result := .emptyList } :=
    fun d hok => collectAux_placeholder (env.agent_invoke question) [] d i hok
      hnores (Or.inl ⟨m, hmem, tc, htc, hid⟩)
  refine ⟨hplace, ?_⟩
  have hne : env.agent_invoke question ≠ [] := List.ne_nil_of_mem hmem
  cases hlast : (env.agent_invoke question).getLast? with
  | none => exact absurd (List.getLast?_eq_none_iff.1 hlast) hne
  | some last =>
    cases hcol : collectToolCalls (env.agent_invoke question) with
    | error e => exact ⟨e, by simp only [agent_answer, hlast, hcol]⟩
    | ok d =>
      obtain ⟨nm, a, hna⟩ := hplace d hcol
      have hdne : d.isEmpty = false := dictGet?_ne_nil d i _ hna
      obtain ⟨err, herr⟩ :=
        format_tool_details_error env d i _ (dictGet?_mem d i _ hna) rfl
      exact ⟨err, by simp only [agent_answer, hlast, hcol, hdne,
        Bool.false_eq_true, if_false, herr]⟩

/-- Witness for the amended C5 on a concrete agent run with an unanswered
`retrieve` invocation. -/
theorem agent_answer_unanswered_call_witness :
    (∀ d, collectToolCalls (agentEnvUnanswered.agent_invoke "q") = .ok d →
      ∃ nm a, dictGet? d "call_1" =
        some { name := nm, args := a, result := .emptyList }) ∧
    ∃ e, agent_answer agentEnvUnanswered "q" = .error e :=
  agent_answer_unanswered_call agentEnvUnanswered "q" "call_1"
    { content := "", tool_calls := [⟨"call_1", "retrieve", .jobj []⟩],
      tool_call_id := none }
    ⟨"call_1", "retrieve", .jobj []⟩
    (List.mem_cons_self _ _)
    (List.mem_cons_self _ _)
    rfl
    (by
      intro m' hm'
      simp only [agentEnvUnanswered, List.mem_cons, List.not_mem_nil,
        or_false] at hm'
      rcases hm' with rfl | rfl <;> simp)

/-! ## Claim C10 -/

/-- Claim C10: when the message history contains a tool-result message
whose `tool_call_id` was never recorded as a tool invocation,
`Agent.answer` raises a `KeyError` — the lookup
`tool_calls[msg.tool_call_id]` is unguarded. -/
theorem agent_answer_orphan_result (env : AgentEnv) (question : String)
    (pre post : List AgentMsg) (m : AgentMsg) (i : String)
    (hmsgs : env.agent_invoke question = pre ++ m :: post)
    (hmid : m.tool_call_id = some i) (hne : i ≠ "")
    (hpre : ∀ p ∈ pre, i ∉ p.tool_calls.map (·.id))
    (hm : i ∉ m.tool_calls.map (·.id)) :
    ∃ j, agent_answer env question = .error ("KeyError: " ++ j) := by
  obtain ⟨j, hj⟩ := collectAux_orphan pre [] m post i rfl hpre hm hmid hne
  refine ⟨j, ?_⟩
  have hne' : env.agent_invoke question ≠ [] := by
    rw [hmsgs]
    simp
  cases hlast : (env.agent_invoke question).getLast? with
  | none => exact absurd (List.getLast?_eq_none_iff.1 hlast) hne'
  | some last =>
    have hcol : collectToolCalls (env.agent_invoke question) =
        .error ("KeyError: " ++ j) := by
      rw [collectToolCalls, hmsgs]
      exact hj
    simp only [agent_answer, hlast, hcol]

/-- Witness for C10 on a concrete run containing a stray tool-result
message with identifier `call_x`. -/
theorem agent_answer_orphan_result_witness :
    ∃ j, agent_answer agentEnvOrphan "q" = .error ("KeyError: " ++ j) :=
  agent_answer_orphan_result agentEnvOrphan "q" [] []
    { content := "stray result", tool_calls := [], tool_call_id := some "call_x" }
    "call_x" rfl rfl (by decide)
    (fun p hp => absurd hp (List.not_mem_nil p))
    (by simp)

end ToyotaAgent
